import Mathlib

/-!
Verification of the ollama-cli agent pipeline core against its specification.

The development shallowly embeds the Python sources:
  - `src/core/agent/writer_agent.py` (path security validation, file mutation),
  - `src/core/agent/planning_agent.py` (planning contract validation),
  - `src/core/config.py` (JSON extraction, retry protocol, session state),
  - `src/ollama_cli/core/agent/writer_agent.py` (content normalization variant).

Modelling conventions:
  - A POSIX path is represented by its list of non-empty components; the
    filesystem is assumed symlink-free, so `Path.resolve()` is pure component
    normalization (`.` dropped, `..` pops one component).
  - Python strings are Lean `String`s; `str.find`/`in`/slicing are embedded as
    explicit functions over `List Char`.
  - `json.loads` is an external library call; it is passed in as an abstract
    `decode : String → Option JValue` parameter wherever the code calls it.
  - Error strings returned by the code are modelled verbatim; the structured
    `ValidateResult` distinguishes the denial branches of
    `WriterAgent._validate_file_path_security`, and
    `ValidateResult.message` recovers the literal message text.
-/

namespace OllamaCli

/-- Python `haystack.find(needle)`: index of the first occurrence, `none` when
absent (Python returns `-1`). `"".find("")` is `0`, as in Python. -/
def findSub : List Char → List Char → Option Nat
  | [], pat => if pat.isEmpty then some 0 else none
  | c :: rest, pat =>
    if pat.isPrefixOf (c :: rest) then some 0
    else (findSub rest pat).map (· + 1)

/-- Python `needle in haystack` on strings (substring containment). -/
def strContains (s pat : String) : Bool := (findSub s.data pat.data).isSome

/-- Split a string at every `/`, keeping empty pieces (Python `s.split('/')`
style helper for path components). -/
def splitCompsAux (cur : List Char) : List Char → List (List Char)
  | [] => [cur.reverse]
  | c :: rest =>
    if c = '/' then cur.reverse :: splitCompsAux [] rest
    else splitCompsAux (c :: cur) rest

/-- The non-empty components of a POSIX path string, in order: the `parts` of
a `pathlib.Path` (sans the root marker). -/
def splitPath (s : String) : List String :=
  ((splitCompsAux [] s.data).map (fun l => String.mk l)).filter (fun c => c != "")

/-- Python `Path(s).is_absolute()` on POSIX: the string starts with `/`. -/
def isAbsolute (s : String) : Bool :=
  match s.data with
  | '/' :: _ => true
  | _ => false

/-- Component normalization performed by `Path.resolve()` on a symlink-free
filesystem: `.` is dropped, `..` removes the previous component (at the root
it is a no-op, as in POSIX). -/
def resolveComps (acc : List String) : List String → List String
  | [] => acc
  | c :: rest =>
    if c = "." then resolveComps acc rest
    else if c = ".." then resolveComps acc.dropLast rest
    else resolveComps (acc ++ [c]) rest

/-- Components of `Path(s).resolve()` for an absolute path string `s`. -/
def resolvePath (s : String) : List String := resolveComps [] (splitPath s)

/-- Components of `(work_dir / file_path).resolve()` as computed by
`_validate_file_path_security`: an absolute `file_path` is used as given,
a relative one is joined under `work_dir` (assumed absolute) first. -/
def joinedComps (wd p : String) : List String :=
  if isAbsolute p = true then resolvePath p
  else resolveComps [] (splitPath wd ++ splitPath p)

/-- Python `str(path)` for an absolute path given by its components. -/
def renderPath (comps : List String) : String :=
  "/" ++ String.intercalate "/" comps

/-- Python `Path.name`: the final component (empty for the root). -/
def pathName (comps : List String) : String := comps.getLast?.getD ""

/-- Python `str.lower()` (the denylist entries are ASCII). -/
def lowerStr (s : String) : String := String.mk (s.data.map Char.toLower)

/-- The `dangerous_patterns` list of `_validate_file_path_security`. -/
def dangerous_patterns : List String :=
  ["/etc/", "/bin/", "/usr/bin/", "/sbin/", "/usr/sbin/",
   "C:\\Windows\\", "C:\\Program Files\\", "C:\\Program Files (x86)\\",
   "/System/", "/Library/", "/.ssh/", "/.aws/", "/.config/"]

/-- The `dangerous_files` list of `_validate_file_path_security`. -/
def dangerous_files : List String :=
  [".env", ".secret", ".key", "id_rsa", "id_dsa", "id_ecdsa", "id_ed25519",
   "passwd", "shadow", "hosts"]

/-- Outcome of `WriterAgent._validate_file_path_security`, one constructor per
`return` site: the work-directory guard, the three denial branches (with the
data interpolated into the Python error message), and the success branch
carrying the normalized path's components. -/
inductive ValidateResult where
  | workDirNotSet
  | outsideWorkDirectory (attempted allowed : String)
  | systemDirectoryDenied (pattern : String)
  | sensitiveFileDenied (pattern : String)
  | allowed (normalized : List String)
  deriving DecidableEq

/-- The literal message string `_validate_file_path_security` pairs with each
outcome (the success branch returns the normalized path string). -/
def ValidateResult.message : ValidateResult → String
  | .workDirNotSet => "Work directory is not set. Please set work directory first."
  | .outsideWorkDirectory a b =>
      "🚫 Security violation: Access denied to path outside work directory.\nAttempted: "
        ++ a ++ "\nAllowed: " ++ b ++ " and subdirectories"
  | .systemDirectoryDenied pat =>
      "🚫 Security violation: Access denied to system directory: " ++ pat
  | .sensitiveFileDenied pat =>
      "🚫 Security violation: Access denied to sensitive file: " ++ pat
  | .allowed normalized => renderPath normalized

/-- `WriterAgent._validate_file_path_security(file_path)` with the agent's
`work_dir` and `strict_security` attributes passed explicitly. Checks run in
source order: work-dir presence, strict containment (`relative_to` succeeds
iff the resolved work dir's components are a prefix of the normalized path's),
the system-directory substring denylist over the rendered path, then the
sensitive-filename denylist over the lowercased final component. -/
def validate_file_path_security (work_dir : Option String) (strict_security : Bool)
    (file_path : String) : ValidateResult :=
  match work_dir with
  | none => .workDirNotSet
  | some wd =>
    if strict_security = true ∧ ¬ (resolvePath wd <+: joinedComps wd file_path) then
      .outsideWorkDirectory (renderPath (joinedComps wd file_path)) (renderPath (resolvePath wd))
    else
      match dangerous_patterns.find?
          (fun pat => strContains (renderPath (joinedComps wd file_path)) pat) with
      | some pat => .systemDirectoryDenied pat
      | none =>
        match dangerous_files.find?
            (fun pat => strContains (lowerStr (pathName (joinedComps wd file_path))) pat) with
        | some pat => .sensitiveFileDenied pat
        | none => .allowed (joinedComps wd file_path)

/-- Python `str.strip()` whitespace set (space, tab, LF, CR, VT, FF). -/
def pyIsSpace (c : Char) : Bool :=
  c = ' ' || c = '\t' || c = '\n' || c = '\r' || c = '\x0b' || c = '\x0c'

/-- Python `str.strip()` on a character list. -/
def pyStripL (cs : List Char) : List Char :=
  ((cs.dropWhile pyIsSpace).reverse.dropWhile pyIsSpace).reverse

/-- Python `str.strip()`. -/
def pyStrip (s : String) : String := String.mk (pyStripL s.data)

/-- Python `haystack.find(needle, start)`: first occurrence at or after
`start`, as an absolute index. -/
def findSubFrom (cs pat : List Char) (start : Nat) : Option Nat :=
  (findSub (cs.drop start) pat).map (· + start)

/-- Python `s.rfind(c)` for a one-character needle: the last occurrence. -/
def rfindChar (cs : List Char) (c : Char) : Option Nat :=
  (findSub cs.reverse [c]).map (fun j => cs.length - 1 - j)

/-- `Config._extract_json_from_response`, on character lists, mirroring the
source's sequential narrowing: when a fence tagged `json` is present and
closed, `response` is reassigned to the stripped fence contents (an unclosed
fence leaves the text whole); else the same for the first untagged fence;
then the text is sliced from its first `{` to its last `}` when both exist in
that order, and otherwise stripped. -/
def extractJsonList (cs : List Char) : List Char :=
  let cs1 :=
    if (findSub cs "```json".data).isSome then
      let start := (findSub cs "```json".data).getD 0 + 7
      match findSubFrom cs "```".data start with
      | some e => pyStripL ((cs.drop start).take (e - start))
      | none => cs
    else if (findSub cs "```".data).isSome then
      let start := (findSub cs "```".data).getD 0 + 3
      match findSubFrom cs "```".data start with
      | some e => pyStripL ((cs.drop start).take (e - start))
      | none => cs
    else cs
  match findSub cs1 ['{'], rfindChar cs1 '}' with
  | some sb, some eb =>
    if sb < eb then (cs1.drop sb).take (eb + 1 - sb) else pyStripL cs1
  | _, _ => pyStripL cs1

/-- `Config._extract_json_from_response(response)`. -/
def extract_json_from_response (response : String) : String :=
  String.mk (extractJsonList response.data)

/-- The narrowing step as the claim describes it: the stripped contents of the
first closed `json`-tagged fence when one exists, else of the first closed
fence, else the whole text. -/
def narrowSpec (cs : List Char) : List Char :=
  match findSub cs "```json".data with
  | some i =>
    (match findSubFrom cs "```".data (i + 7) with
     | some e => pyStripL ((cs.drop (i + 7)).take (e - (i + 7)))
     | none => cs)
  | none =>
    match findSub cs "```".data with
    | some i =>
      (match findSubFrom cs "```".data (i + 3) with
       | some e => pyStripL ((cs.drop (i + 3)).take (e - (i + 3)))
       | none => cs)
    | none => cs

/-- The brace-slicing step as the claim describes it, applied to the narrowed
text: the inclusive slice from the first `{` through the last `}` when both
exist and the first `{` precedes the last `}`, else the stripped text. -/
def braceSliceSpec (t : List Char) : List Char :=
  match findSub t ['{'], rfindChar t '}' with
  | some sb, some eb =>
    if sb < eb then (t.drop sb).take (eb + 1 - sb) else pyStripL t
  | _, _ => pyStripL t

/-- Decoded JSON values, the possible results of `json.loads`. The numeric
payload is never inspected by any check in the source (only `isinstance`
tests against `str` / `list` / `dict` occur), so it is carried as an `Int`. -/
inductive JValue where
  | null
  | bool (b : Bool)
  | num (n : Int)
  | str (s : String)
  | arr (items : List JValue)
  | obj (fields : List (String × JValue))

/-- Python `key in data` / `data[key]` lookup on a decoded JSON object,
represented as its association list (duplicate keys cannot survive
`json.loads`, so first-match lookup is exact). -/
def jLookup (fields : List (String × JValue)) (k : String) : Option JValue :=
  match fields with
  | [] => none
  | (k', v) :: rest => if k' = k then some v else jLookup rest k

/-- Python `data[key]`, only evaluated behind a `key in data` membership
guard in the source; missing keys default to `null` here. -/
def jGet (fields : List (String × JValue)) (k : String) : JValue :=
  (jLookup fields k).getD JValue.null

/-- Python `isinstance(v, str)` on a decoded JSON value. -/
def isJStr : JValue → Bool
  | .str _ => true
  | _ => false

/-- Python `isinstance(v, list) and all(isinstance(item, str) for item in v)`. -/
def isStrArr : JValue → Bool
  | .arr items => items.all isJStr
  | _ => false

/-- The string payload of a decoded JSON value (only read where the source
has already checked `isinstance(v, str)`). -/
def jStrVal : JValue → String
  | .str s => s
  | _ => ""

/-- The `required_keys` list of `PlanningAgent.check_planning_result`. -/
def planning_required_keys : List String :=
  ["analysis", "files_to_read", "files_to_create", "files_to_modify", "dependencies_required"]

/-- The `list_keys` list of `PlanningAgent.check_planning_result`. -/
def planning_list_keys : List String :=
  ["files_to_read", "files_to_create", "files_to_modify", "dependencies_required"]

/-- The `valid_actions` list of `WriterAgent.check_writer_result`. -/
def writer_valid_actions : List String := ["create", "modify", "delete"]

/-- `PlanningAgent.check_planning_result(data)`: all five required keys
present, `analysis` a string, the four list fields lists of strings, checked
in source order (the early-`return False` chain is an `&&` chain). Non-dict
values are rejected; the source only ever receives `json.loads` output here. -/
def check_planning_result (data : JValue) : Bool :=
  match data with
  | .obj fields =>
    (planning_required_keys.all fun k => (jLookup fields k).isSome) &&
    isJStr (jGet fields "analysis") &&
    (planning_list_keys.all fun k => isStrArr (jGet fields k))
  | _ => false

/-- The per-element body of the `for file_obj in data['files']` loop in
`WriterAgent.check_writer_result`: each element must be a dict with string
`path` / `action` / `content` and an `action` drawn from `valid_actions`. -/
def check_file_obj (fo : JValue) : Bool :=
  match fo with
  | .obj ff =>
    (["path", "action", "content"].all fun k => (jLookup ff k).isSome) &&
    isJStr (jGet ff "path") &&
    isJStr (jGet ff "action") &&
    isJStr (jGet ff "content") &&
    writer_valid_actions.contains (jStrVal (jGet ff "action"))
  | _ => false

/-- `WriterAgent.check_writer_result(data)` (both copies of the source are
identical): `files` and `summary` present, `summary` a string, `files` a
list whose elements all pass `check_file_obj`. -/
def check_writer_result (data : JValue) : Bool :=
  match data with
  | .obj fields =>
    (["files", "summary"].all fun k => (jLookup fields k).isSome) &&
    isJStr (jGet fields "summary") &&
    (match jGet fields "files" with
     | .arr items => items.all check_file_obj
     | _ => false)
  | _ => false

/-- The PlanResult shape exactly as the claim states it: `analysis` maps to a
string and each of the four sequence fields maps to a list of strings
(missing key = invalid). -/
def plan_shape_spec (fields : List (String × JValue)) : Bool :=
  (match jLookup fields "analysis" with
   | some v => isJStr v
   | none => false) &&
  (planning_list_keys.all fun k =>
    match jLookup fields k with
    | some v => isStrArr v
    | none => false)

/-- The FileOp shape exactly as the claim states it: string `path`, string
`content`, and a string `action` drawn from the closed enumeration. -/
def file_op_shape_spec (fo : JValue) : Bool :=
  match fo with
  | .obj ff =>
    (match jLookup ff "path" with | some v => isJStr v | none => false) &&
    (match jLookup ff "content" with | some v => isJStr v | none => false) &&
    (match jLookup ff "action" with
     | some (.str a) => writer_valid_actions.contains a
     | _ => false)
  | _ => false

/-- The WriteResult shape exactly as the claim states it: string `summary`
and a `files` list whose every element is a well-formed FileOp. -/
def write_shape_spec (fields : List (String × JValue)) : Bool :=
  (match jLookup fields "summary" with
   | some v => isJStr v
   | none => false) &&
  (match jLookup fields "files" with
   | some (.arr items) => items.all file_op_shape_spec
   | _ => false)

/-- A model filesystem: file contents keyed by absolute-path components, plus
the set of existing directories (symlink-free, matching the path model). -/
structure FS where
  files : List String → Option String
  dirs : List String → Bool

/-- Python `full_path.parent.mkdir(parents=True, exist_ok=True)`: the parent
directory and every ancestor of it comes to exist. -/
def mkdirParents (fs : FS) (parent : List String) : FS :=
  { fs with dirs := fun q => q.isPrefixOf parent || fs.dirs q }

/-- Python `Path.exists()`: true at a file or a directory. -/
def pathExists (fs : FS) (p : List String) : Bool :=
  (fs.files p).isSome || fs.dirs p

/-- Python `open(full_path, 'w').write(content)`: full replacement. -/
def writeFile (fs : FS) (p : List String) (content : String) : FS :=
  { fs with files := fun q => if q = p then some content else fs.files q }

/-- Python `Path.unlink()` on a regular file. -/
def removeFile (fs : FS) (p : List String) : FS :=
  { fs with files := fun q => if q = p then none else fs.files q }

/-- `WriterAgent._process_file_content` of `src/core/agent/writer_agent.py`:
the identity (the body only documents that JSON decoding already unescaped
the content). -/
def process_file_content (content : String) : String := content

/-- `WriterAgent.write_file_safely(file_path, content, action)` of
`src/core/agent/writer_agent.py`, against the model filesystem, with the
agent's `work_dir`/`strict_security` attributes explicit. Mirrors the source
order: security validation; for `delete`, existence check then unlink (the
unlink-a-directory OS fault surfaces through the generic `except` branch);
for `create`/`modify`, `mkdir` of the parents happens *before* the
modify-existence check, a `create` whose target exists is reclassified as
`"modify"`, and the write fully replaces prior content. -/
def write_file_safely (work_dir : Option String) (strict_security : Bool)
    (file_path content action : String) (fs : FS) : Bool × String × FS :=
  match validate_file_path_security work_dir strict_security file_path with
  | .allowed p =>
    if action = "delete" then
      if pathExists fs p = true then
        if fs.dirs p = true then
          (false, "Error writing file " ++ file_path ++ ": is a directory", fs)
        else
          (true, "File deleted successfully: " ++ file_path, removeFile fs p)
      else
        (false, "File not found for deletion: " ++ file_path, fs)
    else if action = "create" ∨ action = "modify" then
      if action = "modify" ∧ pathExists (mkdirParents fs p.dropLast) p = false then
        (false, "File not found for modification: " ++ file_path, mkdirParents fs p.dropLast)
      else if (mkdirParents fs p.dropLast).dirs p = true then
        (false, "Error writing file " ++ file_path ++ ": is a directory",
          mkdirParents fs p.dropLast)
      else
        (true,
         "File " ++ (if action = "create" ∧ pathExists (mkdirParents fs p.dropLast) p = true
            then "modify" else action) ++ "d successfully: " ++ file_path,
         writeFile (mkdirParents fs p.dropLast) p (process_file_content content))
    else
      (false, "Invalid action: " ++ action, fs)
  | r => (false, r.message, fs)

/-- A concrete filesystem holding only the directory `/work`, used by the
witnesses and counterexamples. -/
def fsWorkOnly : FS := ⟨fun _ => none, fun q => q.isPrefixOf ["work"]⟩

/-- `ChatMode` of `src/core/config.py`. -/
inductive ChatMode where
  | ask
  | agent
  deriving DecidableEq

/-- `AgentMode` of `src/core/config.py`. -/
inductive AgentMode where
  | planning
  | reader
  | writer
  | reviewer
  deriving DecidableEq

/-- The mutable session fields of the `Config` singleton that the pipeline
reads and writes: the raw stage responses persisted on acceptance. -/
structure SessionState where
  planning_result : String
  writer_result : String
  deriving DecidableEq

/-- The JSON-parse-failure report of `_process_planning_response` and
`_process_writer_response` (textually identical in both). -/
def json_fail_msg (response : String) : String :=
  "❌ Failed to get valid JSON format after 3 attempts.\n\nLast response:\n```\n"
    ++ response ++ "\n```"

/-- The contract-failure report of `_process_planning_response`. -/
def planning_format_fail (response : String) : String :=
  "❌ Failed to get valid PlanningResult format after 3 attempts.\n\nLast response:\n```\n"
    ++ response ++ "\n```"

/-- The contract-failure report of `_process_writer_response`. -/
def writer_format_fail (response : String) : String :=
  "❌ Failed to get valid WriterResult format after 3 attempts.\n\nLast response:\n```\n"
    ++ response ++ "\n```"

/-- Python `data[k]` on a decoded JSON value known to be a dict at the call
sites (non-dicts yield `null` here; the formatters below only run on values
the corresponding checker accepted). -/
def jGetV (data : JValue) (k : String) : JValue :=
  match data with
  | .obj fields => jGet fields k
  | _ => JValue.null

/-- The element list of a decoded JSON array (the formatters' `for` loops). -/
def jArrItems : JValue → List JValue
  | .arr items => items
  | _ => []

/-- Python `d.get(k, default)` rendered to a string: the call sites only read
keys the checker proved to be strings, so the non-string fallback of
`jStrVal` is never reached on accepted data. -/
def jGetStrD (fields : List (String × JValue)) (k d : String) : String :=
  match jLookup fields k with
  | some v => jStrVal v
  | none => d

/-- One `- ⟨file⟩` body of a Planning markdown section, or the section's
empty-case line (`if data[key]:` truthiness is list non-emptiness). -/
def md_plan_items (items : List JValue) (emptyLine : String) : String :=
  if items.isEmpty then emptyLine
  else String.join (items.map (fun it => "- `" ++ jStrVal it ++ "`\n"))

/-- `PlanningAgent.format_planning_result_to_markdown(data)`. -/
def format_planning_result_to_markdown (data : JValue) : String :=
  "# 📋 Planning Result\n\n" ++
  "## 🔍 Analysis\n" ++ jStrVal (jGetV data "analysis") ++ "\n\n" ++
  "## 📖 Files to Read\n" ++
    md_plan_items (jArrItems (jGetV data "files_to_read")) "- No files to read\n" ++ "\n" ++
  "## ✨ Files to Create\n" ++
    md_plan_items (jArrItems (jGetV data "files_to_create")) "- No files to create\n" ++ "\n" ++
  "## ✏️ Files to Modify\n" ++
    md_plan_items (jArrItems (jGetV data "files_to_modify")) "- No files to modify\n" ++ "\n" ++
  "## 📦 Dependencies Required\n" ++
    md_plan_items (jArrItems (jGetV data "dependencies_required"))
      "- No additional dependencies required\n"

/-- Python `str.title()` for the single-word strings the formatter passes
(the three validated actions). -/
def pyTitleWord (s : String) : String :=
  match s.data with
  | [] => ""
  | c :: rest => String.mk (c.toUpper :: rest.map Char.toLower)

/-- The `action_emoji` mapping of `format_writer_result_to_markdown`. -/
def action_emoji (action : String) : String :=
  if action = "create" then "✨"
  else if action = "modify" then "✏️"
  else if action = "delete" then "🗑️"
  else "📄"

/-- Split at every newline (Python `content.split('\n')`). -/
def splitLinesAux (cur : List Char) : List Char → List String
  | [] => [String.mk cur.reverse]
  | c :: rest =>
    if c = '\n' then String.mk cur.reverse :: splitLinesAux [] rest
    else splitLinesAux (c :: cur) rest

/-- Python `content.split('\n')`. -/
def pySplitLines (s : String) : List String := splitLinesAux [] s.data

/-- Python `Path(name).suffix` as CPython computes it from the final
component: the slice from the last dot when that dot is neither the first
nor the last character of the name, else the empty string. -/
def pySuffix (nm : String) : String :=
  match rfindChar nm.data '.' with
  | some i => if 0 < i ∧ i < nm.data.length - 1 then String.mk (nm.data.drop i) else ""
  | none => ""

/-- The extension-to-language mapping of `format_writer_result_to_markdown`. -/
def md_language (ext : String) : String :=
  if ext = ".py" then "python"
  else if ext = ".js" then "javascript"
  else if ext = ".ts" then "typescript"
  else if ext = ".html" then "html"
  else if ext = ".css" then "css"
  else if ext = ".json" then "json"
  else if ext = ".md" then "markdown"
  else if ext = ".yml" then "yaml"
  else if ext = ".yaml" then "yaml"
  else ""

/-- One file subsection of `format_writer_result_to_markdown`'s loop. -/
def writer_file_section (fo : JValue) : String :=
  let ff := match fo with | .obj l => l | _ => []
  let path := jGetStrD ff "path" "Unknown path"
  let action := jGetStrD ff "action" "unknown"
  let content := jGetStrD ff "content" ""
  "### " ++ action_emoji action ++ " " ++ pyTitleWord action ++ ": `" ++ path ++ "`\n" ++
  (if action ≠ "delete" ∧ content ≠ "" then
     "```" ++ md_language (lowerStr (pySuffix (pathName (splitPath path)))) ++ "\n" ++
     (if (pySplitLines content).length > 10
      then String.intercalate "\n" ((pySplitLines content).take 10) ++ "\n..."
      else content) ++ "\n```\n"
   else "") ++ "\n"

/-- `WriterAgent.format_writer_result_to_markdown(data)`. -/
def format_writer_result_to_markdown (data : JValue) : String :=
  let fields := match data with | .obj l => l | _ => []
  "# 📝 Writer Result\n\n" ++
  (if jGetStrD fields "summary" "" ≠ ""
   then "## 📋 Summary\n" ++ jGetStrD fields "summary" "" ++ "\n\n" else "") ++
  "## 📄 File Operations\n" ++
  (if (jArrItems ((jLookup fields "files").getD (JValue.arr []))).isEmpty
   then "- No file operations specified\n"
   else String.join ((jArrItems ((jLookup fields "files").getD (JValue.arr []))).map
     writer_file_section))

/-- `Config._process_planning_response(response, attempt)`: extract, decode
(`json.loads` abstracted as `decode`), validate; on acceptance persist the
*raw* response into `planning_result` and return the rendered markdown; on
the last attempt (`attempt == 2`) return the failure report embedding the raw
response; otherwise signal a retry. -/
def process_planning_response (decode : String → Option JValue) (st : SessionState)
    (response : String) (attempt : Nat) : Bool × String × SessionState :=
  match decode (extract_json_from_response response) with
  | some json_data =>
    if check_planning_result json_data = true then
      (true, format_planning_result_to_markdown json_data,
       { st with planning_result := response })
    else if attempt = 2 then (true, planning_format_fail response, st)
    else (false, "", st)
  | none =>
    if attempt = 2 then (true, json_fail_msg response, st)
    else (false, "", st)

/-- `Config._process_writer_response(response, attempt)`, symmetric to the
planning variant. -/
def process_writer_response (decode : String → Option JValue) (st : SessionState)
    (response : String) (attempt : Nat) : Bool × String × SessionState :=
  match decode (extract_json_from_response response) with
  | some json_data =>
    if check_writer_result json_data = true then
      (true, format_writer_result_to_markdown json_data,
       { st with writer_result := response })
    else if attempt = 2 then (true, writer_format_fail response, st)
    else (false, "", st)
  | none =>
    if attempt = 2 then (true, json_fail_msg response, st)
    else (false, "", st)

/-- The `for attempt in range(max_retries)` loop of
`Config._execute_chat_with_retry`. The LLM client is `chatF`, a function from
the call's index to its response (the prompt sent never changes, as in the
source); the prompts actually sent are accumulated so that call counts are
observable. -/
def execute_chat_with_retry_go (decode : String → Option JValue) (chatF : Nat → String)
    (chat_mode : ChatMode) (agent_mode : Option AgentMode) (prompt : String) :
    Nat → Nat → SessionState → List String → String × SessionState × List String
  | _, 0, st, calls => ("❌ Failed to get a valid response after all attempts.", st, calls)
  | attempt, remaining + 1, st, calls =>
    if chat_mode = ChatMode.agent ∧ agent_mode = some AgentMode.planning then
      match process_planning_response decode st (chatF attempt) attempt with
      | (success, result, st') =>
        if success = true then (result, st', calls ++ [prompt])
        else execute_chat_with_retry_go decode chatF chat_mode agent_mode prompt
          (attempt + 1) remaining st' (calls ++ [prompt])
    else if chat_mode = ChatMode.agent ∧ agent_mode = some AgentMode.writer then
      match process_writer_response decode st (chatF attempt) attempt with
      | (success, result, st') =>
        if success = true then (result, st', calls ++ [prompt])
        else execute_chat_with_retry_go decode chatF chat_mode agent_mode prompt
          (attempt + 1) remaining st' (calls ++ [prompt])
    else (chatF attempt, st, calls ++ [prompt])

/-- `Config._execute_chat_with_retry(prompt, agent_mode, max_retries)`;
`chat()` always invokes it with the default `max_retries = 3`. -/
def execute_chat_with_retry (decode : String → Option JValue) (chatF : Nat → String)
    (chat_mode : ChatMode) (agent_mode : Option AgentMode) (prompt : String)
    (st : SessionState) (max_retries : Nat) : String × SessionState × List String :=
  execute_chat_with_retry_go decode chatF chat_mode agent_mode prompt 0 max_retries st []

/-- `Config._get_planning_data()`: the empty `planning_result` (Python
falsiness of the default `""`) raises the no-plan `ValueError`; otherwise the
*stored raw text* is parsed with a plain `json.loads` — no re-extraction —
and a parse failure raises the invalid-format `ValueError`. Exceptions are
modelled as `Except.error` with the exception's message. -/
def get_planning_data (decode : String → Option JValue) (planning_result : String) :
    Except String JValue :=
  if planning_result = "" then
    .error "No planning result available. Please run planning first."
  else
    match decode planning_result with
    | some j => .ok j
    | none => .error "Invalid planning result format. Cannot parse JSON."

/-- The READER branch of `Config._build_prompt`: `reading_prompt_of` stands
for `self.reader_agent.get_reading_prompt` (the imported module
`core.agent.reader_agent` is not in the tree; its historical counterpart
reads real files, so it enters the model as an abstract total function —
the Python function catches its own exceptions and always returns). The
`try/except` around `_get_planning_data` is the mirrored `match`. -/
def build_prompt_reader (base : String) (reading_prompt_of : JValue → String)
    (decode : String → Option JValue) (planning_result : String) : String :=
  match get_planning_data decode planning_result with
  | .ok pd => base ++ reading_prompt_of pd
  | .error e => base ++ "\n\n[WARNING] Could not read planning files: " ++ e

/-- The WRITER branch of `Config._build_prompt`: `writer_context_of` stands
for the writer-context block the source builds from the planning data and
`reader_agent.read_planning_files` (real file reads, abstracted as a total
function). -/
def build_prompt_writer (base writing_prompt : String) (writer_context_of : JValue → String)
    (decode : String → Option JValue) (planning_result : String) : String :=
  match get_planning_data decode planning_result with
  | .ok pd => base ++ writing_prompt ++ writer_context_of pd
  | .error e => base ++ "\n\n[WARNING] Could not prepare writer context: " ++ e

/-- A stage response that fails decoding or the planning contract on every
parse, as seen by `_process_planning_response`. -/
def fails_planning (decode : String → Option JValue) (r : String) : Prop :=
  ∀ j, decode (extract_json_from_response r) = some j → check_planning_result j = false

/-- A stage response that fails decoding or the writer contract. -/
def fails_writer (decode : String → Option JValue) (r : String) : Prop :=
  ∀ j, decode (extract_json_from_response r) = some j → check_writer_result j = false

/-- A decoded planning value satisfying the full PlanResult shape, used by
concrete witnesses. -/
def samplePlan : JValue :=
  JValue.obj [("analysis", JValue.str "a"), ("files_to_read", JValue.arr []),
    ("files_to_create", JValue.arr []), ("files_to_modify", JValue.arr []),
    ("dependencies_required", JValue.arr [])]

/-- A concrete decoder that parses exactly the extracted payload `"{x}"` of
`sampleResponse` (and nothing else — in particular not the raw response). -/
def sampleDecode : String → Option JValue :=
  fun s => if s = "{x}" then some samplePlan else none

/-- A raw LLM response wrapping its JSON payload in a `json` code fence. -/
def sampleResponse : String := "see ```json\n{x}\n``` done"

/-- Python `s.startswith(pre)`. -/
def strStartsWith (s pre : String) : Bool := pre.data.isPrefixOf s.data

/-- Python `s.endswith(suf)`. -/
def strEndsWith (s suf : String) : Bool := suf.data.isSuffixOf s.data

/-- Python `s.replace(pat, rep)` for a non-empty `pat`, fuelled so that the
recursion is structural: every step consumes at least one character, so fuel
equal to the text's length never runs out (the `0, cs` equation is
unreachable from `pyReplace`). -/
def pyReplaceAux (pat rep : List Char) : Nat → List Char → List Char
  | _, [] => []
  | 0, cs => cs
  | fuel + 1, c :: rest =>
    if pat ≠ [] ∧ pat.isPrefixOf (c :: rest) then
      rep ++ pyReplaceAux pat rep fuel (rest.drop (pat.length - 1))
    else
      c :: pyReplaceAux pat rep fuel rest

/-- Python `s.replace(pat, rep)`: every non-overlapping occurrence, left to
right (an empty `pat` never occurs at the call sites). -/
def pyReplace (cs pat rep : List Char) : List Char :=
  pyReplaceAux pat rep cs.length cs

/-- Python `s.replace(pat, rep)` on strings. -/
def pyReplaceStr (s pat rep : String) : String :=
  String.mk (pyReplace s.data pat.data rep.data)

/-- `WriterAgent._process_file_content` of
`src/ollama_cli/core/agent/writer_agent.py`: unconditional repair of escape
sequences the model left as literal text — `\\n` to LF, `\\t` to TAB, `\\"`
to `"`, `\\\\` to `\`, in that order, each pass guarded by a containment
test as in the source. -/
def process_file_content_cli (content : String) : String :=
  let c1 := if strContains content "\\n" then pyReplaceStr content "\\n" "\n" else content
  let c2 := if strContains c1 "\\t" then pyReplaceStr c1 "\\t" "\t" else c1
  let c3 := if strContains c2 "\\\"" then pyReplaceStr c2 "\\\"" "\"" else c2
  if strContains c3 "\\\\" then pyReplaceStr c3 "\\\\" "\\" else c3

/-- Python `'    ' * indent_level`. -/
def indentStr (n : Nat) : String := String.mk (List.replicate (4 * n) ' ')

/-- The space/tab set skipped after a semicolon by the CSS formatter. -/
def cssSpaceTab (c : Char) : Bool := c = ' ' || c = '\t'

/-- One emitted CSS line: indentation plus the stripped accumulator. -/
def cssLine (indent : Nat) (cur : List Char) : String :=
  indentStr indent ++ String.mk (pyStripL cur)

/-- Python `i + 1 < len(content) and content[i+1] in [' ', '\t', '\n', '\r']`
on the remaining characters after position `i`. -/
def cssNextIsSpace : List Char → Bool
  | r :: _ => r = ' ' || r = '\t' || r = '\n' || r = '\r'
  | [] => false

/-- The character loop of `WriterAgent._format_css_content`, carrying the
accumulated current line, the indent level, and the emitted lines. -/
def cssGo (cs cur : List Char) (indent : Nat) (lines : List String) : List String :=
  match cs with
  | [] =>
    if (pyStripL cur).isEmpty then lines else lines ++ [cssLine indent cur]
  | c :: rest =>
    if c = '{' then
      cssGo rest [] (indent + 1) (lines ++ [cssLine indent (cur ++ [c])])
    else if c = '}' then
      cssGo rest [] (indent - 1)
        (((if (pyStripL cur).isEmpty then lines else lines ++ [cssLine indent cur]) ++
            [cssLine (indent - 1) ['}']]) ++
          (if rest ≠ [] ∧ ¬ (pyStripL rest).isEmpty then [""] else []))
    else if c = ';' then
      if cssNextIsSpace rest then
        cssGo (rest.dropWhile cssSpaceTab) [] indent (lines ++ [cssLine indent (cur ++ [c])])
      else
        cssGo rest [] indent (lines ++ [cssLine indent (cur ++ [c])])
    else if c = '\n' ∨ c = '\r' then
      if (pyStripL cur).isEmpty then cssGo rest cur indent lines
      else cssGo rest [] indent (lines ++ [cssLine indent cur])
    else if c = ' ' ∧ (pyStripL cur).isEmpty then
      cssGo rest cur indent lines
    else
      cssGo rest (cur ++ [c]) indent lines
termination_by cs.length
decreasing_by
  all_goals
    (simp [List.length_cons]
     try omega
     try exact Nat.lt_succ_of_le ((List.dropWhile_sublist cssSpaceTab).length_le))

/-- The trailing blank-line dedup pass of `_format_css_content`. -/
def dedupBlank (lines : List String) : List String :=
  ((lines.foldl (fun (st : Bool × List String) line =>
    if pyStrip line = "" then
      if st.1 = true then st else (true, "" :: st.2)
    else (false, line :: st.2)) (false, []))).2.reverse

/-- `WriterAgent._format_css_content(content)`. -/
def format_css_content (content : String) : String :=
  String.intercalate "\n" (dedupBlank (cssGo content.data [] 0 []))

/-- `WriterAgent._format_js_ts_content(content)`: line-oriented indentation
from closing/opening brackets. -/
def format_js_ts_content (content : String) : String :=
  String.intercalate "\n"
    (((pySplitLines content).foldl (fun (st : Nat × List String) line =>
      let stripped := pyStrip line
      if stripped = "" then (st.1, "" :: st.2)
      else
        let ind := if strStartsWith stripped "\x7d" || strStartsWith stripped "]" ||
            strStartsWith stripped ")" then st.1 - 1 else st.1
        (if strEndsWith stripped "\x7b" || strEndsWith stripped "[" ||
            strEndsWith stripped "(" then ind + 1 else ind,
         (indentStr ind ++ stripped) :: st.2)) (0, [])).2.reverse)

/-- `WriterAgent._format_python_content(content)`: colon-driven indentation
with the dedent keywords outdented one level for their own line only. -/
def format_python_content (content : String) : String :=
  String.intercalate "\n"
    (((pySplitLines content).foldl (fun (st : Nat × List String) line =>
      let stripped := pyStrip line
      if stripped = "" then (st.1, "" :: st.2)
      else
        let cur := if strStartsWith stripped "except" || strStartsWith stripped "elif" ||
            strStartsWith stripped "else" || strStartsWith stripped "finally"
          then st.1 - 1 else st.1
        (if strEndsWith stripped ":" then st.1 + 1 else st.1,
         (indentStr cur ++ stripped) :: st.2)) (0, [])).2.reverse)

/-- The void-element markers of `_format_html_content`. -/
def htmlVoidTags : List String :=
  ["<br", "<hr", "<img", "<input", "<meta", "<link", "<area", "<base", "<col",
   "<embed", "<source", "<track", "<wbr"]

/-- `WriterAgent._is_single_line_tag(line)`: an opening and a closing tag on
the same line. -/
def is_single_line_tag (line : String) : Bool :=
  let stripped := pyStrip line
  if strContains stripped "<" && strContains stripped ">" then
    match findSub stripped.data ['>'] with
    | some fc => (findSubFrom stripped.data ['<', '/'] fc).isSome
    | none => false
  else false

/-- `WriterAgent._format_html_content(content)`. -/
def format_html_content (content : String) : String :=
  String.intercalate "\n"
    (((pySplitLines content).foldl (fun (st : Nat × List String) line =>
      let stripped := pyStrip line
      if stripped = "" then (st.1, "" :: st.2)
      else if strStartsWith stripped "</" && !(strStartsWith stripped "<!--") then
        (st.1 - 1, (indentStr (st.1 - 1) ++ stripped) :: st.2)
      else if strStartsWith stripped "<!DOCTYPE" then (st.1, stripped :: st.2)
      else if strStartsWith stripped "<!--" then
        (st.1, (indentStr st.1 ++ stripped) :: st.2)
      else if htmlVoidTags.any (fun t => strContains (lowerStr stripped) t) then
        (st.1, (indentStr st.1 ++ stripped) :: st.2)
      else if strStartsWith stripped "<" && !(strStartsWith stripped "</") then
        (if !(strEndsWith stripped "/>") && !(is_single_line_tag stripped) &&
            !(htmlVoidTags.any (fun t => strContains (lowerStr stripped) t))
         then st.1 + 1 else st.1,
         (indentStr st.1 ++ stripped) :: st.2)
      else (st.1, (indentStr st.1 ++ stripped) :: st.2)) (0, [])).2.reverse)

/-- The extension dispatch of the ollama_cli `write_file_safely`: the four
recognized source-file families get their formatter, everything else passes
through. -/
def cli_normalize (ext processed : String) : String :=
  if ext = ".css" then format_css_content processed
  else if ext = ".js" ∨ ext = ".ts" ∨ ext = ".jsx" ∨ ext = ".tsx" then
    format_js_ts_content processed
  else if ext = ".py" then format_python_content processed
  else if ext = ".html" ∨ ext = ".htm" then format_html_content processed
  else processed

/-- `WriterAgent.write_file_safely` of
`src/ollama_cli/core/agent/writer_agent.py`: identical to the core variant
except that the content written is `_process_file_content` (escape repair)
followed by the extension-selected formatter. -/
def write_file_safely_cli (work_dir : Option String) (strict_security : Bool)
    (file_path content action : String) (fs : FS) : Bool × String × FS :=
  match validate_file_path_security work_dir strict_security file_path with
  | .allowed p =>
    if action = "delete" then
      if pathExists fs p = true then
        if fs.dirs p = true then
          (false, "Error writing file " ++ file_path ++ ": is a directory", fs)
        else
          (true, "File deleted successfully: " ++ file_path, removeFile fs p)
      else
        (false, "File not found for deletion: " ++ file_path, fs)
    else if action = "create" ∨ action = "modify" then
      if action = "modify" ∧ pathExists (mkdirParents fs p.dropLast) p = false then
        (false, "File not found for modification: " ++ file_path, mkdirParents fs p.dropLast)
      else if (mkdirParents fs p.dropLast).dirs p = true then
        (false, "Error writing file " ++ file_path ++ ": is a directory",
          mkdirParents fs p.dropLast)
      else
        (true,
         "File " ++ (if action = "create" ∧ pathExists (mkdirParents fs p.dropLast) p = true
            then "modify" else action) ++ "d successfully: " ++ file_path,
         writeFile (mkdirParents fs p.dropLast) p
           (cli_normalize (lowerStr (pySuffix (pathName p))) (process_file_content_cli content)))
    else
      (false, "Invalid action: " ++ action, fs)
  | r => (false, r.message, fs)

theorem resolveComps_append (l₁ : List String) : ∀ (l₂ acc : List String),
    resolveComps acc (l₁ ++ l₂) = resolveComps (resolveComps acc l₁) l₂ := by
  induction l₁ with
  | nil => intro l₂ acc; rfl
  | cons c rest ih =>
    intro l₂ acc
    by_cases h1 : c = "."
    · simp [resolveComps, h1, ih]
    · by_cases h2 : c = ".."
      · simp [resolveComps, h1, h2, ih]
      · simp [resolveComps, h1, h2, ih]

theorem resolveComps_no_dotdot (l : List String) (h : ".." ∉ l) :
    ∀ acc, resolveComps acc l = acc ++ l.filter (fun c => c != ".") := by
  induction l with
  | nil => intro acc; simp [resolveComps]
  | cons c rest ih =>
    intro acc
    have hc : c ≠ ".." := fun hc => h (hc ▸ List.mem_cons_self c rest)
    have hrest : ".." ∉ rest := fun hr => h (List.mem_cons_of_mem c hr)
    by_cases h1 : c = "."
    · simp [resolveComps, h1, ih hrest]
    · simp [resolveComps, h1, hc, ih hrest, List.filter_cons]

/-- C1 (amended): with `strict=true`, validation absolutizes the path (joining
it under the work dir when relative), canonicalizes it, and denies with
`outsideWorkDirectory` exactly when the canonical result is neither the root
nor a descendant of it.  Every relative path with no `..` component resolves
under the root and is therefore never denied as outside the work directory —
but it may still be denied by the denylists (see the counterexample), so it is
not always `allowed`.  For `p = "../../etc/passwd"` the result is the
outside-work-directory denial. -/
theorem c1_pathguard_containment :
    (∀ (wd p : String), ¬ (resolvePath wd <+: joinedComps wd p) →
      validate_file_path_security (some wd) true p =
        ValidateResult.outsideWorkDirectory (renderPath (joinedComps wd p))
          (renderPath (resolvePath wd))) ∧
    (∀ (wd p : String), isAbsolute p = false → ".." ∉ splitPath p →
      resolvePath wd <+: joinedComps wd p ∧
      ∀ a b, validate_file_path_security (some wd) true p ≠
        ValidateResult.outsideWorkDirectory a b) ∧
    validate_file_path_security (some "/work/project") true "../../etc/passwd" =
      ValidateResult.outsideWorkDirectory "/etc/passwd" "/work/project" := by
  refine ⟨?_, ?_, by decide⟩
  · intro wd p h
    simp only [validate_file_path_security]
    rw [if_pos ⟨trivial, h⟩]
  · intro wd p habs hnd
    have hjoin : joinedComps wd p = resolvePath wd ++ (splitPath p).filter (fun c => c != ".") := by
      rw [joinedComps, if_neg (by simp [habs]), resolveComps_append,
        resolveComps_no_dotdot (splitPath p) hnd]
      rfl
    have hpre : resolvePath wd <+: joinedComps wd p := by
      rw [hjoin]; exact List.prefix_append _ _
    refine ⟨hpre, ?_⟩
    intro a b hcontra
    rw [validate_file_path_security, if_neg (fun hcond => hcond.2 hpre)] at hcontra
    rcases hfind : dangerous_patterns.find?
        (fun pat => strContains (renderPath (joinedComps wd p)) pat) with _ | pat
    · rw [hfind] at hcontra
      rcases hfind2 : dangerous_files.find?
          (fun pat => strContains (lowerStr (pathName (joinedComps wd p))) pat) with _ | pat2
      · rw [hfind2] at hcontra; exact ValidateResult.noConfusion hcontra
      · rw [hfind2] at hcontra; exact ValidateResult.noConfusion hcontra
    · rw [hfind] at hcontra; exact ValidateResult.noConfusion hcontra

/-- C1 witness: the amended theorem applied to the concrete relative path
`"src/main.txt"` under root `"/work/project"`. -/
theorem c1_pathguard_containment_witness :
    resolvePath "/work/project" <+: joinedComps "/work/project" "src/main.txt" ∧
    validate_file_path_security (some "/work/project") true "src/main.txt" ≠
      ValidateResult.outsideWorkDirectory "/a" "/b" :=
  ⟨(c1_pathguard_containment.2.1 "/work/project" "src/main.txt" (by decide) (by decide)).1,
   (c1_pathguard_containment.2.1 "/work/project" "src/main.txt" (by decide) (by decide)).2 "/a" "/b"⟩

/-- C1 counterexample: `".env"` is relative and contains no `..` escape, yet
`validate(".env", "/work/project", strict=true)` is a sensitive-file denial,
not an allowed result — refuting the claim that every `..`-free relative path
validates to an allowed path under the root. -/
theorem c1_counterexample :
    isAbsolute ".env" = false ∧ ".." ∉ splitPath ".env" ∧
    validate_file_path_security (some "/work/project") true ".env" =
      ValidateResult.sensitiveFileDenied ".env" ∧
    validate_file_path_security (some "/work/project") true ".env" ≠
      ValidateResult.allowed (joinedComps "/work/project" ".env") := by
  refine ⟨by decide, by decide, by decide, by decide⟩

/-- C2 (amended): whenever the containment check passes (or `strict=false`),
no system-directory substring occurs in the canonical path string, and the
lowercased final component contains a sensitive-filename substring, validation
fails with `sensitiveFileDenied` naming the first matching pattern — even for
paths inside the work directory under `strict=true`; in particular
`validate(root/".env", root, strict=true)` is denied.  (When a
system-directory substring does occur, that denial takes precedence: see the
counterexample.) -/
theorem c2_sensitive_file_denial :
    (∀ (wd p : String) (strict : Bool),
      (strict = true → resolvePath wd <+: joinedComps wd p) →
      (∀ pat ∈ dangerous_patterns, strContains (renderPath (joinedComps wd p)) pat = false) →
      (dangerous_files.any (fun pat => strContains (lowerStr (pathName (joinedComps wd p))) pat)) = true →
      validate_file_path_security (some wd) strict p =
        ValidateResult.sensitiveFileDenied
          ((dangerous_files.find?
            (fun pat => strContains (lowerStr (pathName (joinedComps wd p))) pat)).getD "")) ∧
    validate_file_path_security (some "/work/project") true
        (renderPath (resolvePath "/work/project") ++ "/.env") =
      ValidateResult.sensitiveFileDenied ".env" := by
  constructor
  · intro wd p strict h1 h2 hany
    have hnone : dangerous_patterns.find?
        (fun pat => strContains (renderPath (joinedComps wd p)) pat) = none := by
      rw [List.find?_eq_none]
      intro x hx
      simp [h2 x hx]
    obtain ⟨d, hd⟩ : ∃ d, dangerous_files.find?
        (fun pat => strContains (lowerStr (pathName (joinedComps wd p))) pat) = some d := by
      rw [List.any_eq_true] at hany
      obtain ⟨x, hx, hpx⟩ := hany
      exact Option.isSome_iff_exists.mp (List.find?_isSome.mpr ⟨x, hx, hpx⟩)
    rw [validate_file_path_security,
      if_neg (fun hcond => hcond.2 (h1 hcond.1)), hnone, hd, Option.getD_some]
  · decide

/-- C2 witness: the amended theorem applied to the concrete path `".secret"`
inside root `"/work/project"` with `strict=true`. -/
theorem c2_sensitive_file_denial_witness :
    validate_file_path_security (some "/work/project") true ".secret" =
      ValidateResult.sensitiveFileDenied
        ((dangerous_files.find?
          (fun pat => strContains (lowerStr (pathName (joinedComps "/work/project" ".secret"))) pat)).getD "") :=
  c2_sensitive_file_denial.1 "/work/project" ".secret" true
    (fun _ => by decide) (by decide) (by decide)

/-- C2 counterexample: for `"etc/passwd"` under root `"/work"` — inside the
work directory, `strict=true`, final component `"passwd"` matching the
sensitive-filename list — validation returns `systemDirectoryDenied "/etc/"`,
not a sensitive-file denial: the system-directory check runs first. -/
theorem c2_counterexample :
    strContains (lowerStr (pathName (joinedComps "/work" "etc/passwd"))) "passwd" = true ∧
    resolvePath "/work" <+: joinedComps "/work" "etc/passwd" ∧
    validate_file_path_security (some "/work") true "etc/passwd" =
      ValidateResult.systemDirectoryDenied "/etc/" := by
  refine ⟨by decide, by decide, by decide⟩

/-- C9 (amended): JSON extraction first narrows to the stripped contents of a
closed `json`-tagged fence if present (else the first closed fence if any,
else the whole text); within that substring, if a `{` exists, a `}` exists,
and the first `{` precedes the last `}`, it returns exactly the inclusive
slice from that first `{` through that last `}`; otherwise it returns the
trimmed *narrowed* text — which, when a fence was stripped, is the fence
contents rather than the trimmed original text. -/
theorem c9_extract_json_narrow_then_slice (s : String) :
    extract_json_from_response s = String.mk (braceSliceSpec (narrowSpec s.data)) := by
  have h : extractJsonList s.data = braceSliceSpec (narrowSpec s.data) := by
    rw [extractJsonList, braceSliceSpec, narrowSpec]
    rcases h1 : findSub s.data "```json".data with _ | i
    · simp only [h1, Option.isSome_none, Bool.false_eq_true, if_false]
      rcases h2 : findSub s.data "```".data with _ | j
      · simp [h1, h2]
      · simp only [h2, Option.isSome_some, if_true, Option.getD_some]
    · simp only [h1, Option.isSome_some, if_true, Option.getD_some]
  rw [extract_json_from_response, h]

/-- C9 counterexample: for the input consisting of a fenced block with no
braces, extraction returns the stripped fence contents `"abc"`, while the
trimmed original text is the unchanged input — refuting the claim's fallback
clause that the trimmed *original* text is returned. -/
theorem c9_counterexample :
    extract_json_from_response "```json\nabc\n```" = "abc" ∧
    pyStrip "```json\nabc\n```" = "```json\nabc\n```" ∧
    ("abc" : String) ≠ "```json\nabc\n```" := by
  refine ⟨by decide, by decide, by decide⟩

theorem check_plan_eq_shape (fields : List (String × JValue)) :
    check_planning_result (JValue.obj fields) = plan_shape_spec fields := by
  rcases h1 : jLookup fields "analysis" with _ | v1 <;>
  rcases h2 : jLookup fields "files_to_read" with _ | v2 <;>
  rcases h3 : jLookup fields "files_to_create" with _ | v3 <;>
  rcases h4 : jLookup fields "files_to_modify" with _ | v4 <;>
  rcases h5 : jLookup fields "dependencies_required" with _ | v5 <;>
  simp [check_planning_result, plan_shape_spec, planning_required_keys,
    planning_list_keys, jGet, h1, h2, h3, h4, h5, Bool.and_assoc]

theorem check_file_obj_eq_shape (fo : JValue) :
    check_file_obj fo = file_op_shape_spec fo := by
  cases fo with
  | obj ff =>
    rcases hp : jLookup ff "path" with _ | vp <;>
    rcases ha : jLookup ff "action" with _ | va <;>
    rcases hc : jLookup ff "content" with _ | vc <;>
    simp [check_file_obj, file_op_shape_spec, jGet, hp, ha, hc, Bool.and_assoc]
    · cases va <;> simp [isJStr, jStrVal, Bool.and_left_comm, Bool.and_assoc]
  | null => rfl
  | bool b => rfl
  | num n => rfl
  | str s => rfl
  | arr items => rfl

theorem check_writer_eq_shape (fields : List (String × JValue)) :
    check_writer_result (JValue.obj fields) = write_shape_spec fields := by
  have hfo : check_file_obj = file_op_shape_spec := funext check_file_obj_eq_shape
  rcases h1 : jLookup fields "files" with _ | vf
  · rcases h2 : jLookup fields "summary" with _ | vs <;>
    simp [check_writer_result, write_shape_spec, jGet, h1, h2, hfo, Bool.and_assoc]
  · cases vf <;> rcases h2 : jLookup fields "summary" with _ | vs <;>
    simp [check_writer_result, write_shape_spec, jGet, h1, h2, hfo, Bool.and_assoc]

/-- C4: the validators are exact shape predicates. `check_planning_result` is
true on a mapping iff `analysis` is a string and the four sequence fields are
lists of strings (all five keys present); `check_writer_result` is true on a
mapping iff `summary` is a string, `files` is a list, and every element is a
mapping with string `path`, string `content`, and `action` in the closed set
create/modify/delete — so an `action` of `"archive"` invalidates the whole
value; no partial acceptance, no coercion. -/
theorem c4_contract_validators :
    (∀ fields : List (String × JValue),
      check_planning_result (JValue.obj fields) = plan_shape_spec fields) ∧
    (∀ fields : List (String × JValue),
      check_writer_result (JValue.obj fields) = write_shape_spec fields) ∧
    check_writer_result (JValue.obj
      [("summary", JValue.str "s"),
       ("files", JValue.arr [JValue.obj
         [("path", JValue.str "a.txt"),
          ("action", JValue.str "archive"),
          ("content", JValue.str "x")]])]) = false :=
  ⟨check_plan_eq_shape, check_writer_eq_shape, by rfl⟩

theorem isPrefixOf_dropLast_eq_false (p : List String) (h : p ≠ []) :
    p.isPrefixOf p.dropLast = false := by
  cases hx : p.isPrefixOf p.dropLast
  · rfl
  · have hpre := List.isPrefixOf_iff_prefix.mp hx
    have hle := hpre.length_le
    rw [List.length_dropLast] at hle
    have hpos : 0 < p.length := List.length_pos.mpr h
    omega

theorem mkdirParents_dirs_self (fs : FS) (p : List String) (h : p ≠ []) :
    (mkdirParents fs p.dropLast).dirs p = fs.dirs p := by
  simp [mkdirParents, isPrefixOf_dropLast_eq_false p h]

theorem wfs_denial (wd : Option String) (strict : Bool) (f c a : String) (fs : FS)
    {r : ValidateResult} (hv : validate_file_path_security wd strict f = r)
    (hr : ∀ p, r ≠ ValidateResult.allowed p) :
    write_file_safely wd strict f c a fs = (false, r.message, fs) := by
  unfold write_file_safely
  rw [hv]
  cases r with
  | workDirNotSet => rfl
  | outsideWorkDirectory x y => rfl
  | systemDirectoryDenied pat => rfl
  | sensitiveFileDenied pat => rfl
  | allowed p => exact absurd rfl (hr p)

theorem wfs_delete_eval (wd : Option String) (strict : Bool) (f c : String) (fs : FS)
    (p : List String)
    (hv : validate_file_path_security wd strict f = ValidateResult.allowed p) :
    write_file_safely wd strict f c "delete" fs =
      if pathExists fs p = true then
        if fs.dirs p = true then
          (false, "Error writing file " ++ f ++ ": is a directory", fs)
        else
          (true, "File deleted successfully: " ++ f, removeFile fs p)
      else
        (false, "File not found for deletion: " ++ f, fs) := by
  unfold write_file_safely
  rw [hv]
  rfl

theorem wfs_create_eval (wd : Option String) (strict : Bool) (f c : String) (fs : FS)
    (p : List String)
    (hv : validate_file_path_security wd strict f = ValidateResult.allowed p) :
    write_file_safely wd strict f c "create" fs =
      if (mkdirParents fs p.dropLast).dirs p = true then
        (false, "Error writing file " ++ f ++ ": is a directory", mkdirParents fs p.dropLast)
      else
        (true,
         "File " ++ (if pathExists (mkdirParents fs p.dropLast) p = true
            then "modify" else "create") ++ "d successfully: " ++ f,
         writeFile (mkdirParents fs p.dropLast) p c) := by
  unfold write_file_safely
  rw [hv]
  simp [process_file_content]

theorem wfs_modify_eval (wd : Option String) (strict : Bool) (f c : String) (fs : FS)
    (p : List String)
    (hv : validate_file_path_security wd strict f = ValidateResult.allowed p) :
    write_file_safely wd strict f c "modify" fs =
      if pathExists (mkdirParents fs p.dropLast) p = false then
        (false, "File not found for modification: " ++ f, mkdirParents fs p.dropLast)
      else if (mkdirParents fs p.dropLast).dirs p = true then
        (false, "Error writing file " ++ f ++ ": is a directory", mkdirParents fs p.dropLast)
      else
        (true, "File modifyd successfully: " ++ f,
         writeFile (mkdirParents fs p.dropLast) p c) := by
  unfold write_file_safely
  rw [hv]
  simp [process_file_content]

/-- C5: for an allowed path `f` (whose target is not an existing directory),
applying `create` with content `C1` then `create` with content `C2` succeeds
both times and leaves `f` holding exactly `C2`; the second application is
silently reclassified as a modify — its success message is the modify-form
message the source builds with `action = "modify"` (literally
`"File modifyd successfully: ..."`), never an already-exists error. -/
theorem c5_create_idempotency (wd f c1 c2 : String) (strict : Bool) (fs : FS)
    (p : List String)
    (hval : validate_file_path_security (some wd) strict f = ValidateResult.allowed p)
    (hne : p ≠ []) (hdir : fs.dirs p = false) :
    (write_file_safely (some wd) strict f c1 "create" fs).1 = true ∧
    (write_file_safely (some wd) strict f c2 "create"
      (write_file_safely (some wd) strict f c1 "create" fs).2.2).1 = true ∧
    (write_file_safely (some wd) strict f c2 "create"
      (write_file_safely (some wd) strict f c1 "create" fs).2.2).2.1 =
      "File modifyd successfully: " ++ f ∧
    (write_file_safely (some wd) strict f c2 "create"
      (write_file_safely (some wd) strict f c1 "create" fs).2.2).2.2.files p = some c2 := by
  have hd1 : (mkdirParents fs p.dropLast).dirs p = false := by
    rw [mkdirParents_dirs_self fs p hne]; exact hdir
  have hnd1 : ¬ ((mkdirParents fs p.dropLast).dirs p = true) := by
    rw [hd1]; exact Bool.noConfusion
  have h1 : write_file_safely (some wd) strict f c1 "create" fs =
      (true,
       "File " ++ (if pathExists (mkdirParents fs p.dropLast) p = true
          then "modify" else "create") ++ "d successfully: " ++ f,
       writeFile (mkdirParents fs p.dropLast) p c1) := by
    rw [wfs_create_eval (some wd) strict f c1 fs p hval, if_neg hnd1]
  have hdir1 : (writeFile (mkdirParents fs p.dropLast) p c1).dirs p = false := hd1
  have hd2 : (mkdirParents (writeFile (mkdirParents fs p.dropLast) p c1) p.dropLast).dirs p = false := by
    rw [mkdirParents_dirs_self _ p hne]; exact hdir1
  have hnd2 : ¬ ((mkdirParents (writeFile (mkdirParents fs p.dropLast) p c1) p.dropLast).dirs p = true) := by
    rw [hd2]; exact Bool.noConfusion
  have hex : pathExists (mkdirParents (writeFile (mkdirParents fs p.dropLast) p c1) p.dropLast) p = true := by
    simp [pathExists, mkdirParents, writeFile]
  have h2 : write_file_safely (some wd) strict f c2 "create"
        (writeFile (mkdirParents fs p.dropLast) p c1) =
      (true, "File modifyd successfully: " ++ f,
       writeFile (mkdirParents (writeFile (mkdirParents fs p.dropLast) p c1) p.dropLast) p c2) := by
    rw [wfs_create_eval (some wd) strict f c2 _ p hval, if_neg hnd2, if_pos hex]
    rfl
  have hsnd : (write_file_safely (some wd) strict f c1 "create" fs).2.2 =
      writeFile (mkdirParents fs p.dropLast) p c1 := by rw [h1]
  refine ⟨by rw [h1], ?_, ?_, ?_⟩
  · rw [hsnd, h2]
  · rw [hsnd, h2]
  · rw [hsnd, h2]
    simp [writeFile]

/-- C5 witness: the theorem applied at `f = "a.txt"` under root `/work` on
the concrete filesystem `fsWorkOnly`. -/
theorem c5_create_idempotency_witness :
    (write_file_safely (some "/work") true "a.txt" "x" "create" fsWorkOnly).1 = true ∧
    (write_file_safely (some "/work") true "a.txt" "y" "create"
      (write_file_safely (some "/work") true "a.txt" "x" "create" fsWorkOnly).2.2).2.1 =
      "File modifyd successfully: " ++ "a.txt" ∧
    (write_file_safely (some "/work") true "a.txt" "y" "create"
      (write_file_safely (some "/work") true "a.txt" "x" "create" fsWorkOnly).2.2).2.2.files
      ["work", "a.txt"] = some "y" :=
  ⟨(c5_create_idempotency "/work" "a.txt" "x" "y" true fsWorkOnly ["work", "a.txt"]
      (by decide) (by decide) (by decide)).1,
   (c5_create_idempotency "/work" "a.txt" "x" "y" true fsWorkOnly ["work", "a.txt"]
      (by decide) (by decide) (by decide)).2.2.1,
   (c5_create_idempotency "/work" "a.txt" "x" "y" true fsWorkOnly ["work", "a.txt"]
      (by decide) (by decide) (by decide)).2.2.2⟩

/-- C6 (amended): a failed operation never touches any file's content (no
write, no removal); a failed `delete` — in particular a delete of a missing
target, which returns "not found for deletion" without raising — leaves the
filesystem entirely unchanged, as does any security denial; but a `modify` of
a missing target returns "not found for modification" only *after* creating
the target's parent directories, so directory creation is the one residue a
failed operation can leave. -/
theorem c6_apply_failure_effects :
    (∀ (wd f c a : String) (strict : Bool) (fs : FS),
      (write_file_safely (some wd) strict f c a fs).1 = false →
      ∀ q, (write_file_safely (some wd) strict f c a fs).2.2.files q = fs.files q) ∧
    (∀ (wd f c : String) (strict : Bool) (fs : FS),
      (write_file_safely (some wd) strict f c "delete" fs).1 = false →
      (write_file_safely (some wd) strict f c "delete" fs).2.2 = fs) ∧
    (∀ (wd f c a : String) (strict : Bool) (fs : FS),
      (∀ p, validate_file_path_security (some wd) strict f ≠ ValidateResult.allowed p) →
      (write_file_safely (some wd) strict f c a fs).2.2 = fs) ∧
    (∀ (wd f c : String) (strict : Bool) (fs : FS) (p : List String),
      validate_file_path_security (some wd) strict f = ValidateResult.allowed p →
      pathExists fs p = false →
      write_file_safely (some wd) strict f c "delete" fs =
        (false, "File not found for deletion: " ++ f, fs)) ∧
    (∀ (wd f c : String) (strict : Bool) (fs : FS) (p : List String),
      validate_file_path_security (some wd) strict f = ValidateResult.allowed p →
      pathExists (mkdirParents fs p.dropLast) p = false →
      write_file_safely (some wd) strict f c "modify" fs =
        (false, "File not found for modification: " ++ f, mkdirParents fs p.dropLast)) := by
  refine ⟨?_, ?_, ?_, ?_, ?_⟩
  · intro wd f c a strict fs hfail q
    rcases hv : validate_file_path_security (some wd) strict f with _ | ⟨x, y⟩ | pat | pat | p
    · rw [wfs_denial (some wd) strict f c a fs hv (fun p hp => ValidateResult.noConfusion hp)]
    · rw [wfs_denial (some wd) strict f c a fs hv (fun p hp => ValidateResult.noConfusion hp)]
    · rw [wfs_denial (some wd) strict f c a fs hv (fun p hp => ValidateResult.noConfusion hp)]
    · rw [wfs_denial (some wd) strict f c a fs hv (fun p hp => ValidateResult.noConfusion hp)]
    · by_cases hd : a = "delete"
      · subst hd
        rw [wfs_delete_eval (some wd) strict f c fs p hv] at hfail ⊢
        by_cases he : pathExists fs p = true
        · rw [if_pos he] at hfail ⊢
          by_cases hdd : fs.dirs p = true
          · rw [if_pos hdd] at hfail ⊢
          · rw [if_neg hdd] at hfail
            exact Bool.noConfusion hfail
        · rw [if_neg he] at hfail ⊢
      · by_cases hcm : a = "create" ∨ a = "modify"
        · rcases hcm with hc | hm
          · subst hc
            rw [wfs_create_eval (some wd) strict f c fs p hv] at hfail ⊢
            by_cases hdd : (mkdirParents fs p.dropLast).dirs p = true
            · rw [if_pos hdd] at hfail ⊢
              rfl
            · rw [if_neg hdd] at hfail
              exact Bool.noConfusion hfail
          · subst hm
            rw [wfs_modify_eval (some wd) strict f c fs p hv] at hfail ⊢
            by_cases hme : pathExists (mkdirParents fs p.dropLast) p = false
            · rw [if_pos hme] at hfail ⊢
              rfl
            · rw [if_neg hme] at hfail ⊢
              by_cases hdd : (mkdirParents fs p.dropLast).dirs p = true
              · rw [if_pos hdd] at hfail ⊢
                rfl
              · rw [if_neg hdd] at hfail
                exact Bool.noConfusion hfail
        · have hw : write_file_safely (some wd) strict f c a fs =
              (false, "Invalid action: " ++ a, fs) := by
            unfold write_file_safely
            rw [hv]
            simp only [if_neg hd, if_neg hcm]
          rw [hw]
  · intro wd f c strict fs hfail
    rcases hv : validate_file_path_security (some wd) strict f with _ | ⟨x, y⟩ | pat | pat | p
    · rw [wfs_denial (some wd) strict f c "delete" fs hv (fun p hp => ValidateResult.noConfusion hp)]
    · rw [wfs_denial (some wd) strict f c "delete" fs hv (fun p hp => ValidateResult.noConfusion hp)]
    · rw [wfs_denial (some wd) strict f c "delete" fs hv (fun p hp => ValidateResult.noConfusion hp)]
    · rw [wfs_denial (some wd) strict f c "delete" fs hv (fun p hp => ValidateResult.noConfusion hp)]
    · rw [wfs_delete_eval (some wd) strict f c fs p hv] at hfail ⊢
      by_cases he : pathExists fs p = true
      · rw [if_pos he] at hfail ⊢
        by_cases hdd : fs.dirs p = true
        · rw [if_pos hdd] at hfail ⊢
        · rw [if_neg hdd] at hfail
          exact Bool.noConfusion hfail
      · rw [if_neg he] at hfail ⊢
  · intro wd f c a strict fs hne
    rcases hv : validate_file_path_security (some wd) strict f with _ | ⟨x, y⟩ | pat | pat | p
    · rw [wfs_denial (some wd) strict f c a fs hv (fun p hp => ValidateResult.noConfusion hp)]
    · rw [wfs_denial (some wd) strict f c a fs hv (fun p hp => ValidateResult.noConfusion hp)]
    · rw [wfs_denial (some wd) strict f c a fs hv (fun p hp => ValidateResult.noConfusion hp)]
    · rw [wfs_denial (some wd) strict f c a fs hv (fun p hp => ValidateResult.noConfusion hp)]
    · exact absurd hv (hne p)
  · intro wd f c strict fs p hv he
    have hne : ¬ (pathExists fs p = true) := by
      rw [he]; exact Bool.noConfusion
    rw [wfs_delete_eval (some wd) strict f c fs p hv, if_neg hne]
  · intro wd f c strict fs p hv he
    rw [wfs_modify_eval (some wd) strict f c fs p hv, if_pos he]

/-- C6 witness: a failed delete of the missing `b.txt` leaves the concrete
filesystem `fsWorkOnly` exactly unchanged. -/
theorem c6_apply_failure_effects_witness :
    (write_file_safely (some "/work") true "b.txt" "" "delete" fsWorkOnly).2.2.files
      ["work", "b.txt"] = fsWorkOnly.files ["work", "b.txt"] ∧
    (write_file_safely (some "/work") true "b.txt" "" "delete" fsWorkOnly).2.2 = fsWorkOnly :=
  ⟨c6_apply_failure_effects.1 "/work" "b.txt" "" "delete" true fsWorkOnly (by decide)
      ["work", "b.txt"],
   c6_apply_failure_effects.2.1 "/work" "b.txt" "" true fsWorkOnly (by decide)⟩

/-- C6 counterexample: a `modify` of the missing `sub/a.txt` under `/work`
fails with "not found for modification", yet the directory `/work/sub` exists
afterwards though it did not before — the failed operation changed the
filesystem, refuting "no directories are created by the failed operation". -/
theorem c6_counterexample :
    (write_file_safely (some "/work") true "sub/a.txt" "x" "modify" fsWorkOnly).1 = false ∧
    (write_file_safely (some "/work") true "sub/a.txt" "x" "modify" fsWorkOnly).2.1 =
      "File not found for modification: " ++ "sub/a.txt" ∧
    (write_file_safely (some "/work") true "sub/a.txt" "x" "modify" fsWorkOnly).2.2.dirs
      ["work", "sub"] = true ∧
    fsWorkOnly.dirs ["work", "sub"] = false := by
  refine ⟨by decide, by decide, by decide, by decide⟩

theorem process_planning_fail_early (decode : String → Option JValue) (st : SessionState)
    (r : String) (attempt : Nat) (h : fails_planning decode r) (ha : ¬ attempt = 2) :
    process_planning_response decode st r attempt = (false, "", st) := by
  unfold process_planning_response
  cases hd : decode (extract_json_from_response r) with
  | none => simp [ha]
  | some j => simp [h j hd, ha]

theorem process_planning_fail_last (decode : String → Option JValue) (st : SessionState)
    (r : String) (h : fails_planning decode r) :
    process_planning_response decode st r 2 = (true, json_fail_msg r, st) ∨
    process_planning_response decode st r 2 = (true, planning_format_fail r, st) := by
  unfold process_planning_response
  cases hd : decode (extract_json_from_response r) with
  | none => exact Or.inl (by simp)
  | some j => exact Or.inr (by simp [h j hd])

theorem process_writer_fail_early (decode : String → Option JValue) (st : SessionState)
    (r : String) (attempt : Nat) (h : fails_writer decode r) (ha : ¬ attempt = 2) :
    process_writer_response decode st r attempt = (false, "", st) := by
  unfold process_writer_response
  cases hd : decode (extract_json_from_response r) with
  | none => simp [ha]
  | some j => simp [h j hd, ha]

theorem process_writer_fail_last (decode : String → Option JValue) (st : SessionState)
    (r : String) (h : fails_writer decode r) :
    process_writer_response decode st r 2 = (true, json_fail_msg r, st) ∨
    process_writer_response decode st r 2 = (true, writer_format_fail r, st) := by
  unfold process_writer_response
  cases hd : decode (extract_json_from_response r) with
  | none => exact Or.inl (by simp)
  | some j => exact Or.inr (by simp [h j hd])

/-- C3: when every response the LLM client returns fails extraction+decoding
or contract validation, the Planning (resp. Writer) stage makes exactly 3
chat calls, each with the identical prompt, leaves the session state
untouched, and returns a failure report embedding the last raw response
(the JSON-failure or the contract-failure report for that response). -/
theorem c3_retry_exhaustion :
    (∀ (decode : String → Option JValue) (chatF : Nat → String) (prompt : String)
        (st : SessionState),
      (∀ n, n < 3 → fails_planning decode (chatF n)) →
      (execute_chat_with_retry decode chatF ChatMode.agent (some AgentMode.planning)
        prompt st 3).2.2 = [prompt, prompt, prompt] ∧
      (execute_chat_with_retry decode chatF ChatMode.agent (some AgentMode.planning)
        prompt st 3).2.1 = st ∧
      ((execute_chat_with_retry decode chatF ChatMode.agent (some AgentMode.planning)
          prompt st 3).1 = json_fail_msg (chatF 2) ∨
       (execute_chat_with_retry decode chatF ChatMode.agent (some AgentMode.planning)
          prompt st 3).1 = planning_format_fail (chatF 2))) ∧
    (∀ (decode : String → Option JValue) (chatF : Nat → String) (prompt : String)
        (st : SessionState),
      (∀ n, n < 3 → fails_writer decode (chatF n)) →
      (execute_chat_with_retry decode chatF ChatMode.agent (some AgentMode.writer)
        prompt st 3).2.2 = [prompt, prompt, prompt] ∧
      (execute_chat_with_retry decode chatF ChatMode.agent (some AgentMode.writer)
        prompt st 3).2.1 = st ∧
      ((execute_chat_with_retry decode chatF ChatMode.agent (some AgentMode.writer)
          prompt st 3).1 = json_fail_msg (chatF 2) ∨
       (execute_chat_with_retry decode chatF ChatMode.agent (some AgentMode.writer)
          prompt st 3).1 = writer_format_fail (chatF 2))) := by
  constructor
  · intro decode chatF prompt st h
    have h0 := process_planning_fail_early decode st (chatF 0) 0 (h 0 (by omega)) (by omega)
    have h1 := process_planning_fail_early decode st (chatF 1) 1 (h 1 (by omega)) (by omega)
    rcases process_planning_fail_last decode st (chatF 2) (h 2 (by omega)) with h2 | h2
    · have hrun : execute_chat_with_retry decode chatF ChatMode.agent
          (some AgentMode.planning) prompt st 3 =
          (json_fail_msg (chatF 2), st, [prompt, prompt, prompt]) := by
        simp [execute_chat_with_retry, execute_chat_with_retry_go, h0, h1, h2]
      exact ⟨by rw [hrun], by rw [hrun], Or.inl (by rw [hrun])⟩
    · have hrun : execute_chat_with_retry decode chatF ChatMode.agent
          (some AgentMode.planning) prompt st 3 =
          (planning_format_fail (chatF 2), st, [prompt, prompt, prompt]) := by
        simp [execute_chat_with_retry, execute_chat_with_retry_go, h0, h1, h2]
      exact ⟨by rw [hrun], by rw [hrun], Or.inr (by rw [hrun])⟩
  · intro decode chatF prompt st h
    have h0 := process_writer_fail_early decode st (chatF 0) 0 (h 0 (by omega)) (by omega)
    have h1 := process_writer_fail_early decode st (chatF 1) 1 (h 1 (by omega)) (by omega)
    rcases process_writer_fail_last decode st (chatF 2) (h 2 (by omega)) with h2 | h2
    · have hrun : execute_chat_with_retry decode chatF ChatMode.agent
          (some AgentMode.writer) prompt st 3 =
          (json_fail_msg (chatF 2), st, [prompt, prompt, prompt]) := by
        simp [execute_chat_with_retry, execute_chat_with_retry_go, h0, h1, h2]
      exact ⟨by rw [hrun], by rw [hrun], Or.inl (by rw [hrun])⟩
    · have hrun : execute_chat_with_retry decode chatF ChatMode.agent
          (some AgentMode.writer) prompt st 3 =
          (writer_format_fail (chatF 2), st, [prompt, prompt, prompt]) := by
        simp [execute_chat_with_retry, execute_chat_with_retry_go, h0, h1, h2]
      exact ⟨by rw [hrun], by rw [hrun], Or.inr (by rw [hrun])⟩

/-- C3 witness: a client that always answers the non-JSON text `"nope"`
drives the Planning stage through exactly three identical calls. -/
theorem c3_retry_exhaustion_witness :
    (execute_chat_with_retry (fun _ => none) (fun _ => "nope") ChatMode.agent
      (some AgentMode.planning) "p" ⟨"", ""⟩ 3).2.2 = ["p", "p", "p"] ∧
    ((execute_chat_with_retry (fun _ => none) (fun _ => "nope") ChatMode.agent
        (some AgentMode.planning) "p" ⟨"", ""⟩ 3).1 = json_fail_msg "nope" ∨
     (execute_chat_with_retry (fun _ => none) (fun _ => "nope") ChatMode.agent
        (some AgentMode.planning) "p" ⟨"", ""⟩ 3).1 = planning_format_fail "nope") :=
  ⟨(c3_retry_exhaustion.1 (fun _ => none) (fun _ => "nope") "p" ⟨"", ""⟩
      (fun _ _ _ hj => Option.noConfusion hj)).1,
   (c3_retry_exhaustion.1 (fun _ => none) (fun _ => "nope") "p" ⟨"", ""⟩
      (fun _ _ _ hj => Option.noConfusion hj)).2.2⟩

/-- C7 (amended): `_get_planning_data` does fail with the explicit
"No planning result available" error when no accepted Planning result is
held; but the Reader and Writer prompt builders catch that error and
*proceed*, appending a `[WARNING]` marker to the prompt instead of failing
the request, and the Reader-mode retry executor then simply returns the
LLM's first response — the request is not aborted. -/
theorem c7_no_plan_handling :
    (∀ decode : String → Option JValue,
      get_planning_data decode "" =
        Except.error "No planning result available. Please run planning first.") ∧
    (∀ (base : String) (rp : JValue → String) (decode : String → Option JValue),
      build_prompt_reader base rp decode "" =
        base ++ "\n\n[WARNING] Could not read planning files: No planning result available. Please run planning first.") ∧
    (∀ (base wp : String) (wc : JValue → String) (decode : String → Option JValue),
      build_prompt_writer base wp wc decode "" =
        base ++ "\n\n[WARNING] Could not prepare writer context: No planning result available. Please run planning first.") ∧
    (∀ (decode : String → Option JValue) (chatF : Nat → String) (prompt : String)
        (st : SessionState),
      execute_chat_with_retry decode chatF ChatMode.agent (some AgentMode.reader)
        prompt st 3 = (chatF 0, st, [prompt])) := by
  refine ⟨fun _ => rfl, ?_, ?_, ?_⟩
  · intro base rp decode
    have hred : build_prompt_reader base rp decode "" =
        base ++ "\n\n[WARNING] Could not read planning files: " ++
          "No planning result available. Please run planning first." := rfl
    rw [hred, String.append_assoc]
    exact congrArg (fun s => base ++ s) (by decide)
  · intro base wp wc decode
    have hred : build_prompt_writer base wp wc decode "" =
        base ++ "\n\n[WARNING] Could not prepare writer context: " ++
          "No planning result available. Please run planning first." := rfl
    rw [hred, String.append_assoc]
    exact congrArg (fun s => base ++ s) (by decide)
  · intro decode chatF prompt st
    simp [execute_chat_with_retry, execute_chat_with_retry_go]

/-- C7 counterexample: with no planning result held, the Reader request does
not fail — the prompt is built with an inline warning and the pipeline
returns the LLM's reply as the request's result. -/
theorem c7_counterexample :
    build_prompt_reader "BASE" (fun _ => "") (fun _ => none) "" =
      "BASE" ++ "\n\n[WARNING] Could not read planning files: No planning result available. Please run planning first." ∧
    execute_chat_with_retry (fun _ => none) (fun _ => "llm reply") ChatMode.agent
      (some AgentMode.reader) "p" ⟨"", ""⟩ 3 = ("llm reply", ⟨"", ""⟩, ["p"]) := by
  constructor
  · decide
  · simp [execute_chat_with_retry, execute_chat_with_retry_go]

/-- C10: on acceptance the Planning stage persists the *raw* LLM text into
the session (not the extracted JSON), and the later plan lookup parses that
stored text with a plain `json.loads` and no re-extraction — so whenever the
accepted response's JSON was wrapped in a fence or prose (raw text not
plainly parseable), `_get_planning_data` fails with the
"Invalid planning result format" error even though the stage reported
success. -/
theorem c10_raw_persisted_unparseable :
    (∀ (decode : String → Option JValue) (st : SessionState) (response : String)
        (attempt : Nat) (j : JValue),
      decode (extract_json_from_response response) = some j →
      check_planning_result j = true →
      process_planning_response decode st response attempt =
        (true, format_planning_result_to_markdown j,
         { st with planning_result := response })) ∧
    (∀ (decode : String → Option JValue) (response : String),
      response ≠ "" → decode response = none →
      get_planning_data decode response =
        Except.error "Invalid planning result format. Cannot parse JSON.") := by
  constructor
  · intro decode st response attempt j hd hc
    unfold process_planning_response
    rw [hd]
    simp [hc]
  · intro decode response hne hd
    unfold get_planning_data
    rw [if_neg hne, hd]

/-- C10 witness: `sampleResponse` wraps `samplePlan`'s payload in a fence;
the stage accepts it and stores the raw text, and the subsequent lookup
fails to parse that stored text. -/
theorem c10_witness :
    process_planning_response sampleDecode ⟨"", ""⟩ sampleResponse 0 =
      (true, format_planning_result_to_markdown samplePlan, ⟨sampleResponse, ""⟩) ∧
    get_planning_data sampleDecode sampleResponse =
      Except.error "Invalid planning result format. Cannot parse JSON." :=
  ⟨c10_raw_persisted_unparseable.1 sampleDecode ⟨"", ""⟩ sampleResponse 0 samplePlan rfl rfl,
   c10_raw_persisted_unparseable.2 sampleDecode sampleResponse (by decide) rfl⟩

theorem wfs_cli_create_eval (wd : Option String) (strict : Bool) (f c : String) (fs : FS)
    (p : List String)
    (hv : validate_file_path_security wd strict f = ValidateResult.allowed p) :
    write_file_safely_cli wd strict f c "create" fs =
      if (mkdirParents fs p.dropLast).dirs p = true then
        (false, "Error writing file " ++ f ++ ": is a directory", mkdirParents fs p.dropLast)
      else
        (true,
         "File " ++ (if pathExists (mkdirParents fs p.dropLast) p = true
            then "modify" else "create") ++ "d successfully: " ++ f,
         writeFile (mkdirParents fs p.dropLast) p
           (cli_normalize (lowerStr (pySuffix (pathName p))) (process_file_content_cli c))) := by
  unfold write_file_safely_cli
  rw [hv]
  simp

theorem wfs_cli_modify_eval (wd : Option String) (strict : Bool) (f c : String) (fs : FS)
    (p : List String)
    (hv : validate_file_path_security wd strict f = ValidateResult.allowed p) :
    write_file_safely_cli wd strict f c "modify" fs =
      if pathExists (mkdirParents fs p.dropLast) p = false then
        (false, "File not found for modification: " ++ f, mkdirParents fs p.dropLast)
      else if (mkdirParents fs p.dropLast).dirs p = true then
        (false, "Error writing file " ++ f ++ ": is a directory", mkdirParents fs p.dropLast)
      else
        (true, "File modifyd successfully: " ++ f,
         writeFile (mkdirParents fs p.dropLast) p
           (cli_normalize (lowerStr (pySuffix (pathName p))) (process_file_content_cli c))) := by
  unfold write_file_safely_cli
  rw [hv]
  simp

/-- C8 (amended): on every successful create/modify of the ollama_cli
writer, the bytes written are the FileOp's content after an *unconditional*
escape-repair pass (`\\n`, `\\t`, `\\"`, `\\\\` replaced) followed by the
file-type-selected formatter; for a target whose extension is outside the
recognized families the formatter is the identity, so the written content is
exactly the escape-repaired content — equal to the given content only when
none of the four escape sequences occur in it. -/
theorem c8_content_normalization :
    (∀ (wd f c a : String) (strict : Bool) (fs : FS) (p : List String),
      validate_file_path_security (some wd) strict f = ValidateResult.allowed p →
      (a = "create" ∨ a = "modify") →
      (write_file_safely_cli (some wd) strict f c a fs).1 = true →
      (write_file_safely_cli (some wd) strict f c a fs).2.2.files p =
        some (cli_normalize (lowerStr (pySuffix (pathName p))) (process_file_content_cli c))) ∧
    (∀ ext c : String,
      ext ≠ ".css" → ¬ (ext = ".js" ∨ ext = ".ts" ∨ ext = ".jsx" ∨ ext = ".tsx") →
      ext ≠ ".py" → ¬ (ext = ".html" ∨ ext = ".htm") →
      cli_normalize ext c = c) ∧
    (∀ c : String,
      strContains c "\\n" = false → strContains c "\\t" = false →
      strContains c "\\\"" = false → strContains c "\\\\" = false →
      process_file_content_cli c = c) := by
  refine ⟨?_, ?_, ?_⟩
  · intro wd f c a strict fs p hv ha hsucc
    rcases ha with ha | ha
    · subst ha
      rw [wfs_cli_create_eval (some wd) strict f c fs p hv] at hsucc ⊢
      by_cases hdd : (mkdirParents fs p.dropLast).dirs p = true
      · rw [if_pos hdd] at hsucc
        exact Bool.noConfusion hsucc
      · rw [if_neg hdd]
        simp [writeFile]
    · subst ha
      rw [wfs_cli_modify_eval (some wd) strict f c fs p hv] at hsucc ⊢
      by_cases hme : pathExists (mkdirParents fs p.dropLast) p = false
      · rw [if_pos hme] at hsucc
        exact Bool.noConfusion hsucc
      · rw [if_neg hme] at hsucc ⊢
        by_cases hdd : (mkdirParents fs p.dropLast).dirs p = true
        · rw [if_pos hdd] at hsucc
          exact Bool.noConfusion hsucc
        · rw [if_neg hdd]
          simp [writeFile]
  · intro ext c h1 h2 h3 h4
    unfold cli_normalize
    rw [if_neg h1, if_neg h2, if_neg h3, if_neg h4]
  · intro c h1 h2 h3 h4
    unfold process_file_content_cli
    simp [h1, h2, h3, h4]

/-- C8 witness: writing plain content to the unrecognized extension `.txt`
stores it unchanged. -/
theorem c8_content_normalization_witness :
    (write_file_safely_cli (some "/work") true "notes.txt" "hello" "create" fsWorkOnly).2.2.files
      ["work", "notes.txt"] =
      some (cli_normalize (lowerStr (pySuffix (pathName ["work", "notes.txt"])))
        (process_file_content_cli "hello")) ∧
    cli_normalize ".txt" "hello" = "hello" ∧
    process_file_content_cli "hello" = "hello" :=
  ⟨c8_content_normalization.1 "/work" "notes.txt" "hello" "create" true fsWorkOnly
      ["work", "notes.txt"] (by decide) (Or.inl rfl) (by decide),
   c8_content_normalization.2.1 ".txt" "hello" (by decide) (by decide) (by decide) (by decide),
   c8_content_normalization.2.2 "hello" (by decide) (by decide) (by decide) (by decide)⟩

/-- C8 counterexample: the target `notes.txt` has an extension outside every
recognized source-file family, yet the successful create writes `"a\nb"`
(real newline) for the given content `"a\\nb"` (backslash-n) — the written
bytes are not the content string unchanged, because the escape-repair pass
runs regardless of file type. -/
theorem c8_counterexample :
    (write_file_safely_cli (some "/work") true "notes.txt" "a\\nb" "create" fsWorkOnly).1 = true ∧
    (write_file_safely_cli (some "/work") true "notes.txt" "a\\nb" "create" fsWorkOnly).2.2.files
      ["work", "notes.txt"] = some "a\nb" ∧
    ("a\nb" : String) ≠ "a\\nb" := by
  refine ⟨by decide, by decide, by decide⟩

end OllamaCli
